import Mathlib

/-!
Verification of the ocean-ml-data-prep core: mask-driven sparse-to-dense
reconstruction of llc4320 surface fields and the hemisphere split.

The reconstruction code (notebook cell "Restore full grid") is, in Python:

    if len(sss_shrunk) != np.sum(mask != 0):
        raise ValueError('Mismatch between shrunk data and mask wet cells.')
    mask[mask != 0] = sss_shrunk
    mask[mask == 0] = np.nan

The README variant performs the same two masked assignments with no length
check.  We embed the float values as an inductive type distinguishing the
NaN sentinel from exact numeric values (the code only ever copies values and
compares them with zero, and IEEE gives `NaN != 0` as true, so this carries
all the semantics the code exercises).  The in-place mutation of the mask
buffer is made explicit: a run returns both the final state of the mask
buffer and the produced output.
-/

/-- A floating-point value as the code observes it: either the quiet-NaN
missing sentinel or an exact numeric value.  `num` carries an integer since
the code never does arithmetic, only copies and zero-comparisons. -/
inductive FVal where
  | nan : FVal
  | num : Int → FVal
deriving DecidableEq

/-- The test `v != 0` has value `false`, i.e. `v == 0`, exactly when `v` is
the numeral zero; IEEE comparison on NaN yields false. -/
def FVal.isZero : FVal → Bool
  | .nan => false
  | .num q => q = 0

/-- `np.sum(mask != 0)`: the number of entries of the buffer that compare
unequal to zero. -/
def countNonzero (mask : List FVal) : Nat :=
  (mask.filter (fun v => ! v.isZero)).length

/-- The masked assignment `mask[mask != 0] = shrunk` in the exact-length
case: the nonzero positions of `mask`, visited in increasing index order,
receive the successive entries of `shrunk`; zero positions keep their
value.  (If `shrunk` runs out the remaining nonzero positions keep their
values; the callers only reach this in the exact-length case.) -/
def overlay : List FVal → List FVal → List FVal
  | [], _ => []
  | v :: vs, ss =>
    if v.isZero then v :: overlay vs ss
    else
      match ss with
      | [] => v :: overlay vs []
      | s :: ss₂ => s :: overlay vs ss₂

/-- The masked assignment `buf[buf == 0] = np.nan`: every entry of the
buffer that compares equal to zero becomes the NaN sentinel. -/
def fillNan (buf : List FVal) : List FVal :=
  buf.map (fun v => if v.isZero then FVal.nan else v)

instance {ε α : Type} [DecidableEq ε] [DecidableEq α] : DecidableEq (Except ε α) := fun x y =>
  match x, y with
  | Except.ok a, Except.ok b =>
    if h : a = b then Decidable.isTrue (by simp [h]) else Decidable.isFalse (by simp [h])
  | Except.error a, Except.error b =>
    if h : a = b then Decidable.isTrue (by simp [h]) else Decidable.isFalse (by simp [h])
  | Except.ok _, Except.error _ => Decidable.isFalse (by simp)
  | Except.error _, Except.ok _ => Decidable.isFalse (by simp)

/-- Result of one run of the notebook reconstruction cell: the state of the
mask buffer after the run, and the output the run hands to the caller.
In the source the dense result IS the mutated mask buffer, so on success
the two fields hold the same buffer. -/
structure RunResult where
  maskAfter : List FVal
  output : Except String (List FVal)
deriving DecidableEq

/-- The notebook reconstruction cell: first the explicit length check
(raising before any write), then the two in-place masked assignments on the
mask buffer, which afterwards serves as the dense output. -/
def reconstructRun (mask shrunk : List FVal) : RunResult :=
  if shrunk.length ≠ countNonzero mask then
    ⟨mask, Except.error "Mismatch between shrunk data and mask wet cells."⟩
  else
    let buf := fillNan (overlay mask shrunk)
    ⟨buf, Except.ok buf⟩

/-- The dense output of the notebook reconstruction, when it succeeds. -/
def reconstruct (mask shrunk : List FVal) : Except String (List FVal) :=
  (reconstructRun mask shrunk).output

/-- NumPy semantics of `mask[mask != 0] = values` in general: an exact
length match assigns elementwise in order; a length-one value list
broadcasts its single value to every selected position; any other length
mismatch raises. -/
def maskedAssign (mask shrunk : List FVal) : Except String (List FVal) :=
  if shrunk.length = countNonzero mask then Except.ok (overlay mask shrunk)
  else
    match shrunk with
    | [v] => Except.ok (mask.map (fun x => if x.isZero then x else v))
    | _ => Except.error "cannot broadcast values to masked positions"

/-- The README ("Usage Example") variant of the reconstruction: the same
two masked assignments with no length validation at all. -/
def reconstructReadme (mask shrunk : List FVal) : Except String (List FVal) :=
  (maskedAssign mask shrunk).map fillNan

/-- The dense values at the nonzero-mask positions, in increasing index
order: the sub-sequence of `dense` selected by the sparsity pattern. -/
def selectNonzero : List FVal → List FVal → List FVal
  | m :: ms, d :: ds =>
    if m.isZero then selectNonzero ms ds else d :: selectNonzero ms ds
  | _, _ => []

/-- Modelled from the spec: the implementation of `utils.mds2d` is absent
from the repository (only its call sites and printed output shapes appear),
so the hemisphere splitter is modelled from the spec's words — two fixed 2D
tile shapes plus "a fixed lookup" from tile position to flat dense position,
"a documented constant transform".  `order` lists, for each tile cell in
east-rows-then-west-rows traversal order, the flat dense index it reads;
the spec's guarantee is that this lookup is a bijection on indices. -/
structure Geometry where
  eastRows : Nat
  eastCols : Nat
  westRows : Nat
  westCols : Nat
  order : List Nat

/-- Combined number of tile cells of a geometry. -/
def Geometry.size (g : Geometry) : Nat :=
  g.eastRows * g.eastCols + g.westRows * g.westCols

/-- The spec's guarantee on the documented index transform: it is a pure
bijection between tile positions and flat dense grid positions. -/
abbrev Geometry.WellFormed (g : Geometry) : Prop :=
  g.order.Perm (List.range g.size)

/-- Modelled from the spec: the reference llc4320 geometry of `utils.mds2d`.
The tile shapes are the ones the repository prints — (12960, 8640) east and
(8640, 12960) west; the index transform itself is absent from the
repository, and the spec leaves it an opaque documented constant, here the
identity enumeration placeholder. -/
def refGeometry : Geometry :=
  ⟨12960, 8640, 8640, 12960, List.range (12960 * 8640 + 8640 * 12960)⟩

/-- Row count of the reference global grid. -/
def ROWS : Nat := 12960

/-- Column count of the reference global grid. -/
def COLS : Nat := 8640

/-- Read the dense values at a list of flat indices, in order. -/
def gatherD (dense : List FVal) (idxs : List Nat) : List FVal :=
  idxs.map (fun i => dense.getD i (FVal.num 0))

/-- Cut a flat list into consecutive rows of `k` entries each. -/
def chunkRows {α : Type} (k : Nat) (l : List α) : List (List α) :=
  if h : l.length = 0 ∨ k = 0 then []
  else l.take k :: chunkRows k (l.drop k)
termination_by l.length
decreasing_by
  push_neg at h
  rw [List.length_drop]
  omega

/-- Modelled from the spec: the hemisphere split.  It validates the dense
length against the fixed geometry size, then lays the dense values out
along the geometry's index transform and cuts the result into the east
tile's rows followed by the west tile's rows. -/
def split (g : Geometry) (dense : List FVal) :
    Except String (List (List FVal) × List (List FVal)) :=
  if dense.length ≠ g.size then Except.error "ShapeMismatchError"
  else
    Except.ok
      (chunkRows g.eastCols ((gatherD dense g.order).take (g.eastRows * g.eastCols)),
       chunkRows g.westCols ((gatherD dense g.order).drop (g.eastRows * g.eastCols)))

/-- The inverse mapping of the split: place every tile cell back at the flat
dense position the geometry's index transform assigned to it. -/
def unsplit (g : Geometry) (east west : List (List FVal)) : List FVal :=
  (List.range g.size).map
    (fun i => (east.flatten ++ west.flatten).getD (List.indexOf i g.order) (FVal.num 0))

theorem overlay_length (m : List FVal) : ∀ s : List FVal, (overlay m s).length = m.length := by
  induction m with
  | nil => intro s; rfl
  | cons v vs ih =>
    intro s
    by_cases hv : v.isZero
    · simp [overlay, hv, ih]
    · cases s with
      | nil => simp [overlay, hv, ih]
      | cons a as => simp [overlay, hv, ih]

theorem overlay_nil (m : List FVal) : overlay m [] = m := by
  induction m with
  | nil => rfl
  | cons v vs ih =>
    by_cases hv : v.isZero
    · simp [overlay, hv, ih]
    · simp [overlay, hv, ih]

theorem fillNan_length (b : List FVal) : (fillNan b).length = b.length := by
  simp [fillNan]

theorem overlay_cons_zero {v : FVal} (vs ss : List FVal) (h : v.isZero = true) :
    overlay (v :: vs) ss = v :: overlay vs ss := by
  simp [overlay, h]

theorem overlay_cons_nonzero {v : FVal} (vs : List FVal) (a : FVal) (as : List FVal)
    (h : v.isZero = false) :
    overlay (v :: vs) (a :: as) = a :: overlay vs as := by
  simp [overlay, h]

theorem overlay_cons_nonzero_nil {v : FVal} (vs : List FVal) (h : v.isZero = false) :
    overlay (v :: vs) [] = v :: overlay vs [] := by
  simp [overlay, h]

theorem fillNan_cons (v : FVal) (b : List FVal) :
    fillNan (v :: b) = (if v.isZero then FVal.nan else v) :: fillNan b := rfl

theorem selectNonzero_cons (m d : FVal) (ms ds : List FVal) :
    selectNonzero (m :: ms) (d :: ds) =
      if m.isZero then selectNonzero ms ds else d :: selectNonzero ms ds := rfl

theorem isZero_fillNan_mem (b : List FVal) : ∀ w ∈ fillNan b, w.isZero = false := by
  intro w hw
  simp only [fillNan, List.mem_map] at hw
  obtain ⟨v, _, hv⟩ := hw
  by_cases h : v.isZero
  · rw [← hv, if_pos h]; rfl
  · rw [← hv, if_neg h]; exact Bool.eq_false_iff.mpr h

theorem countNonzero_fillNan (b : List FVal) : countNonzero (fillNan b) = b.length := by
  unfold countNonzero
  rw [List.filter_eq_self.mpr]
  · exact fillNan_length b
  · intro w hw
    simpa using isZero_fillNan_mem b w hw

theorem countNonzero_cons_zero {v : FVal} (vs : List FVal) (h : v.isZero = true) :
    countNonzero (v :: vs) = countNonzero vs := by
  simp [countNonzero, List.filter, h]

theorem countNonzero_cons_nonzero {v : FVal} (vs : List FVal) (h : v.isZero = false) :
    countNonzero (v :: vs) = countNonzero vs + 1 := by
  simp [countNonzero, List.filter, h]

theorem countNonzero_lt_length (m : List FVal) (hdry : ∃ v ∈ m, v.isZero = true) :
    countNonzero m < m.length := by
  induction m with
  | nil => simp at hdry
  | cons v vs ih =>
    by_cases hv : v.isZero
    · rw [countNonzero_cons_zero vs hv]
      have := List.length_filter_le (fun w => ! FVal.isZero w) vs
      simp only [countNonzero, List.length_cons]
      omega
    · rw [countNonzero_cons_nonzero vs (Bool.eq_false_iff.mpr hv)]
      have hvs : ∃ w ∈ vs, w.isZero = true := by
        rcases hdry with ⟨w, hwmem, hw⟩
        rcases List.mem_cons.mp hwmem with rfl | hmem
        · exact absurd hw (by simpa using hv)
        · exact ⟨w, hmem, hw⟩
      have := ih hvs
      simp only [List.length_cons]
      omega

theorem selectNonzero_overlay (m : List FVal) : ∀ s : List FVal,
    s.length = countNonzero m →
    selectNonzero m (fillNan (overlay m s)) = fillNan s := by
  induction m with
  | nil =>
    intro s h
    simp only [countNonzero, List.filter_nil, List.length_nil] at h
    rw [List.length_eq_zero.mp h]
    rfl
  | cons v vs ih =>
    intro s h
    by_cases hv : v.isZero
    · rw [countNonzero_cons_zero vs hv] at h
      rw [overlay_cons_zero vs s hv, fillNan_cons, if_pos hv, selectNonzero_cons, if_pos hv]
      exact ih s h
    · rw [countNonzero_cons_nonzero vs (Bool.eq_false_iff.mpr hv)] at h
      cases s with
      | nil => simp at h
      | cons a as =>
        simp only [List.length_cons, Nat.add_right_cancel_iff] at h
        rw [overlay_cons_nonzero vs a as (Bool.eq_false_iff.mpr hv), fillNan_cons,
          selectNonzero_cons, if_neg hv, fillNan_cons]
        exact congrArg _ (ih as h)

theorem getD_fillNan_overlay_of_isZero (m : List FVal) : ∀ (s : List FVal) (i : Nat),
    i < m.length → (m.getD i FVal.nan).isZero = true →
    (fillNan (overlay m s)).getD i FVal.nan = FVal.nan := by
  induction m with
  | nil => intro s i hi _; simp at hi
  | cons v vs ih =>
    intro s i hi hz
    by_cases hv : v.isZero
    · rw [overlay_cons_zero vs s hv, fillNan_cons, if_pos hv]
      cases i with
      | zero => rfl
      | succ j =>
        rw [List.getD_cons_succ]
        exact ih s j (by simpa using hi) (by simpa using hz)
    · cases i with
      | zero =>
        rw [List.getD_cons_zero] at hz
        exact absurd hz (by simpa using hv)
      | succ j =>
        have hj : j < vs.length := by simpa using hi
        have hzj : (vs.getD j FVal.nan).isZero = true := by simpa using hz
        cases s with
        | nil =>
          rw [overlay_cons_nonzero_nil vs (Bool.eq_false_iff.mpr hv), fillNan_cons,
            List.getD_cons_succ]
          exact ih [] j hj hzj
        | cons a as =>
          rw [overlay_cons_nonzero vs a as (Bool.eq_false_iff.mpr hv), fillNan_cons,
            List.getD_cons_succ]
          exact ih as j hj hzj

theorem fillNan_eq_self (l : List FVal) (h : ∀ s ∈ l, s.isZero = false) :
    fillNan l = l := by
  induction l with
  | nil => rfl
  | cons v vs ih =>
    rw [fillNan_cons, if_neg (by simp [h v (List.mem_cons_self v vs)]),
      ih (fun s hs => h s (List.mem_cons_of_mem v hs))]

theorem fillNan_all_zero (l : List FVal) (h : ∀ v ∈ l, v.isZero = true) :
    fillNan l = List.replicate l.length FVal.nan := by
  induction l with
  | nil => rfl
  | cons v vs ih =>
    rw [fillNan_cons, if_pos (h v (List.mem_cons_self v vs)), List.length_cons,
      List.replicate_succ]
    exact congrArg _ (ih (fun w hw => h w (List.mem_cons_of_mem v hw)))

theorem getD_fillNan_of_isZero (l : List FVal) : ∀ k : Nat, k < l.length →
    (l.getD k FVal.nan).isZero = true →
    (fillNan l).getD k FVal.nan = FVal.nan := by
  induction l with
  | nil => intro k hk _; simp at hk
  | cons v vs ih =>
    intro k hk hz
    cases k with
    | zero =>
      rw [List.getD_cons_zero] at hz
      rw [fillNan_cons, List.getD_cons_zero, if_pos hz]
    | succ j =>
      rw [fillNan_cons, List.getD_cons_succ]
      exact ih j (by simpa using hk) (by simpa using hz)

theorem reconstructRun_ok (mask shrunk : List FVal)
    (hlen : shrunk.length = countNonzero mask) :
    reconstructRun mask shrunk =
      ⟨fillNan (overlay mask shrunk), Except.ok (fillNan (overlay mask shrunk))⟩ := by
  unfold reconstructRun
  rw [if_neg (not_not_intro hlen)]

theorem reconstructRun_mismatch (mask shrunk : List FVal)
    (h : shrunk.length ≠ countNonzero mask) :
    reconstructRun mask shrunk =
      ⟨mask, Except.error "Mismatch between shrunk data and mask wet cells."⟩ := by
  unfold reconstructRun
  rw [if_pos h]

/-- Claim C1 (amended): for every mask and every shrunk vector whose length
equals the number of nonzero mask entries and whose entries are all nonzero,
the notebook reconstruction returns a dense sequence of the mask's length in
which every zero-mask position holds the missing sentinel and the
sub-sequence at nonzero-mask positions equals the shrunk vector exactly in
order (so the k-th nonzero mask position holds shrunk[k]). -/
theorem reconstruct_nonzero_shrunk_spec (mask shrunk : List FVal)
    (hlen : shrunk.length = countNonzero mask)
    (hnz : ∀ s ∈ shrunk, s.isZero = false) :
    ∃ dense, reconstruct mask shrunk = Except.ok dense ∧
      dense.length = mask.length ∧
      (∀ i, i < mask.length → (mask.getD i FVal.nan).isZero = true →
        dense.getD i FVal.nan = FVal.nan) ∧
      selectNonzero mask dense = shrunk := by
  refine ⟨fillNan (overlay mask shrunk), ?_, ?_, ?_, ?_⟩
  · unfold reconstruct
    rw [reconstructRun_ok mask shrunk hlen]
  · rw [fillNan_length, overlay_length]
  · intro i hi hz
    exact getD_fillNan_overlay_of_isZero mask shrunk i hi hz
  · rw [selectNonzero_overlay mask shrunk hlen, fillNan_eq_self shrunk hnz]

/-- Claim C1 witness: the spec's own end-to-end example, mask
[0,1,0,1,1,0] with shrunk [10,20,30]. -/
theorem reconstruct_nonzero_shrunk_spec_witness :
    ([FVal.num 10, FVal.num 20, FVal.num 30] : List FVal).length =
      countNonzero [FVal.num 0, FVal.num 1, FVal.num 0, FVal.num 1, FVal.num 1, FVal.num 0] ∧
    (∀ s ∈ ([FVal.num 10, FVal.num 20, FVal.num 30] : List FVal), s.isZero = false) ∧
    (∃ dense, reconstruct
        [FVal.num 0, FVal.num 1, FVal.num 0, FVal.num 1, FVal.num 1, FVal.num 0]
        [FVal.num 10, FVal.num 20, FVal.num 30] = Except.ok dense ∧
      dense.length =
        ([FVal.num 0, FVal.num 1, FVal.num 0, FVal.num 1, FVal.num 1, FVal.num 0] : List FVal).length ∧
      (∀ i, i < ([FVal.num 0, FVal.num 1, FVal.num 0, FVal.num 1, FVal.num 1, FVal.num 0] : List FVal).length →
        (([FVal.num 0, FVal.num 1, FVal.num 0, FVal.num 1, FVal.num 1, FVal.num 0] : List FVal).getD i FVal.nan).isZero = true →
        dense.getD i FVal.nan = FVal.nan) ∧
      selectNonzero [FVal.num 0, FVal.num 1, FVal.num 0, FVal.num 1, FVal.num 1, FVal.num 0] dense =
        [FVal.num 10, FVal.num 20, FVal.num 30]) :=
  ⟨by decide, by decide,
    reconstruct_nonzero_shrunk_spec _ _ (by decide) (by decide)⟩

/-- Claim C1 counterexample: with mask [1] and shrunk [0] the code returns a
dense grid holding the missing sentinel at the wet position, so the
sub-sequence of the dense output at nonzero-mask positions is [NaN], not the
shrunk vector [0] as the claim requires. -/
theorem reconstruct_zero_shrunk_cex :
    reconstruct [FVal.num 1] [FVal.num 0] = Except.ok [FVal.nan] ∧
    selectNonzero [FVal.num 1] [FVal.nan] ≠ [FVal.num 0] := by
  decide

/-- Claim C2 (code bug): the notebook reconstruction mutates the mask buffer
in place — after a successful run the mask buffer differs from its input
value, and the dense output is that very mutated buffer (aliased), against
the spec's read-only-inputs/fresh-output contract. -/
theorem reconstruct_mutates_mask :
    (reconstructRun [FVal.num 0, FVal.num 1] [FVal.num 5]).maskAfter ≠
      [FVal.num 0, FVal.num 1] ∧
    (reconstructRun [FVal.num 0, FVal.num 1] [FVal.num 5]).output =
      Except.ok (reconstructRun [FVal.num 0, FVal.num 1] [FVal.num 5]).maskAfter := by
  decide

/-- Claim C3: whenever the shrunk length differs from the number of nonzero
mask entries, the notebook reconstruction fails with the shape-mismatch
error, produces no output, and the check fires before any write: the mask
buffer is left exactly as it was. -/
theorem reconstruct_length_mismatch_error (mask shrunk : List FVal)
    (h : shrunk.length ≠ countNonzero mask) :
    (reconstructRun mask shrunk).output =
      Except.error "Mismatch between shrunk data and mask wet cells." ∧
    (reconstructRun mask shrunk).maskAfter = mask := by
  rw [reconstructRun_mismatch mask shrunk h]
  exact ⟨rfl, rfl⟩

/-- Claim C3 witness: the spec's example, mask [0,1,1,0] with the
wrong-length shrunk vector [5] (expected length 2). -/
theorem reconstruct_length_mismatch_error_witness :
    ([FVal.num 5] : List FVal).length ≠
      countNonzero [FVal.num 0, FVal.num 1, FVal.num 1, FVal.num 0] ∧
    ((reconstructRun [FVal.num 0, FVal.num 1, FVal.num 1, FVal.num 0] [FVal.num 5]).output =
      Except.error "Mismatch between shrunk data and mask wet cells." ∧
    (reconstructRun [FVal.num 0, FVal.num 1, FVal.num 1, FVal.num 0] [FVal.num 5]).maskAfter =
      [FVal.num 0, FVal.num 1, FVal.num 1, FVal.num 0]) :=
  ⟨by decide, reconstruct_length_mismatch_error _ _ (by decide)⟩

/-- Claim C6 (amended): on equal input values the reconstruction is a pure
function of its arguments, but re-running it through the same mask reference
is not repeatable: whenever the mask has at least one zero entry and the
lengths match, the first call succeeds, and the second call made on the
buffer the first call left behind fails with the shape-mismatch error, so
the two runs do not yield identical outputs. -/
theorem reconstruct_same_mask_reuse_fails (mask shrunk : List FVal)
    (hlen : shrunk.length = countNonzero mask)
    (hdry : ∃ v ∈ mask, v.isZero = true) :
    (reconstructRun mask shrunk).output = Except.ok (fillNan (overlay mask shrunk)) ∧
    (reconstructRun (reconstructRun mask shrunk).maskAfter shrunk).output =
      Except.error "Mismatch between shrunk data and mask wet cells." ∧
    (reconstructRun mask shrunk).output ≠
      (reconstructRun (reconstructRun mask shrunk).maskAfter shrunk).output := by
  have h1 := reconstructRun_ok mask shrunk hlen
  have hafter : (reconstructRun mask shrunk).maskAfter = fillNan (overlay mask shrunk) := by
    rw [h1]
  have hlt : shrunk.length < mask.length := hlen ▸ countNonzero_lt_length mask hdry
  have hcount : countNonzero (fillNan (overlay mask shrunk)) = mask.length := by
    rw [countNonzero_fillNan, overlay_length]
  have h2 := reconstructRun_mismatch (fillNan (overlay mask shrunk)) shrunk
    (by rw [hcount]; omega)
  have hout1 : (reconstructRun mask shrunk).output =
      Except.ok (fillNan (overlay mask shrunk)) := by
    rw [h1]
  have hout2 : (reconstructRun (reconstructRun mask shrunk).maskAfter shrunk).output =
      Except.error "Mismatch between shrunk data and mask wet cells." := by
    rw [hafter, h2]
  exact ⟨hout1, hout2, by rw [hout1, hout2]; exact fun hc => Except.noConfusion hc⟩

/-- Claim C6 witness: mask [0,1] with shrunk [5]. -/
theorem reconstruct_same_mask_reuse_fails_witness :
    ([FVal.num 5] : List FVal).length = countNonzero [FVal.num 0, FVal.num 1] ∧
    (∃ v ∈ ([FVal.num 0, FVal.num 1] : List FVal), v.isZero = true) ∧
    ((reconstructRun [FVal.num 0, FVal.num 1] [FVal.num 5]).output =
      Except.ok (fillNan (overlay [FVal.num 0, FVal.num 1] [FVal.num 5])) ∧
    (reconstructRun (reconstructRun [FVal.num 0, FVal.num 1] [FVal.num 5]).maskAfter
        [FVal.num 5]).output =
      Except.error "Mismatch between shrunk data and mask wet cells." ∧
    (reconstructRun [FVal.num 0, FVal.num 1] [FVal.num 5]).output ≠
      (reconstructRun (reconstructRun [FVal.num 0, FVal.num 1] [FVal.num 5]).maskAfter
        [FVal.num 5]).output) :=
  ⟨by decide, by decide, reconstruct_same_mask_reuse_fails _ _ (by decide) (by decide)⟩

/-- Claim C6 counterexample: with the mask reference [0,1] and shrunk [5],
the first call succeeds, but the second call through the mask buffer as the
first call left it raises the shape-mismatch error instead of returning a
bit-identical output. -/
theorem reconstruct_same_mask_reuse_cex :
    (reconstructRun [FVal.num 0, FVal.num 1] [FVal.num 5]).output =
      Except.ok [FVal.nan, FVal.num 5] ∧
    (reconstructRun (reconstructRun [FVal.num 0, FVal.num 1] [FVal.num 5]).maskAfter
        [FVal.num 5]).output =
      Except.error "Mismatch between shrunk data and mask wet cells." := by
  decide

/-- Claim C7: for an all-zero mask together with the empty shrunk vector the
reconstruction succeeds and returns a dense grid of the mask's length
entirely filled with the missing sentinel. -/
theorem reconstruct_all_zero_mask (mask : List FVal)
    (hz : ∀ v ∈ mask, v.isZero = true) :
    reconstruct mask [] = Except.ok (List.replicate mask.length FVal.nan) := by
  have hc : countNonzero mask = 0 := by
    unfold countNonzero
    rw [List.filter_eq_nil_iff.mpr fun a ha => by simp [hz a ha], List.length_nil]
  unfold reconstruct
  rw [reconstructRun_ok mask [] (by simp [hc]), overlay_nil, fillNan_all_zero mask hz]

/-- Claim C7 witness: the all-zero mask [0,0] with the empty shrunk
vector. -/
theorem reconstruct_all_zero_mask_witness :
    (∀ v ∈ ([FVal.num 0, FVal.num 0] : List FVal), v.isZero = true) ∧
    reconstruct [FVal.num 0, FVal.num 0] [] =
      Except.ok (List.replicate ([FVal.num 0, FVal.num 0] : List FVal).length FVal.nan) :=
  ⟨by decide, reconstruct_all_zero_mask _ (by decide)⟩

/-- Claim C9: because the dry-cell fill runs after the shrunk data has been
overlaid onto the buffer, whenever the k-th shrunk value is exactly zero the
reconstruction succeeds and the k-th nonzero-mask position of the dense
output holds the missing sentinel rather than zero. -/
theorem reconstruct_zero_value_becomes_nan (mask shrunk : List FVal) (k : Nat)
    (hlen : shrunk.length = countNonzero mask)
    (hk : k < shrunk.length)
    (hz : shrunk.getD k FVal.nan = FVal.num 0) :
    ∃ dense, reconstruct mask shrunk = Except.ok dense ∧
      (selectNonzero mask dense).getD k FVal.nan = FVal.nan := by
  refine ⟨fillNan (overlay mask shrunk), ?_, ?_⟩
  · unfold reconstruct
    rw [reconstructRun_ok mask shrunk hlen]
  · rw [selectNonzero_overlay mask shrunk hlen]
    exact getD_fillNan_of_isZero shrunk k hk (by rw [hz]; rfl)

/-- Claim C9 witness: mask [1,1] with shrunk [7,0]; the second wet cell of
the dense output holds NaN though its shrunk value was 0. -/
theorem reconstruct_zero_value_becomes_nan_witness :
    ([FVal.num 7, FVal.num 0] : List FVal).length =
      countNonzero [FVal.num 1, FVal.num 1] ∧
    1 < ([FVal.num 7, FVal.num 0] : List FVal).length ∧
    ([FVal.num 7, FVal.num 0] : List FVal).getD 1 FVal.nan = FVal.num 0 ∧
    (∃ dense, reconstruct [FVal.num 1, FVal.num 1] [FVal.num 7, FVal.num 0] =
        Except.ok dense ∧
      (selectNonzero [FVal.num 1, FVal.num 1] dense).getD 1 FVal.nan = FVal.nan) :=
  ⟨by decide, by decide, by decide,
    reconstruct_zero_value_becomes_nan _ _ 1 (by decide) (by decide) (by decide)⟩

/-- Claim C10: the README variant, which performs no length validation,
broadcasts a single shrunk value to every wet cell: with mask [0,1,1,0]
(two wet cells) and the mismatched one-element shrunk vector [5] it
completes without error and returns the corrupted dense grid
[NaN, 5, 5, NaN]. -/
theorem readme_broadcast_silent_corruption :
    countNonzero [FVal.num 0, FVal.num 1, FVal.num 1, FVal.num 0] = 2 ∧
    ([FVal.num 5] : List FVal).length = 1 ∧
    reconstructReadme [FVal.num 0, FVal.num 1, FVal.num 1, FVal.num 0] [FVal.num 5] =
      Except.ok [FVal.nan, FVal.num 5, FVal.num 5, FVal.nan] := by
  decide

theorem chunkRows_zero_left {α : Type} (l : List α) : chunkRows 0 l = [] := by
  rw [chunkRows, dif_pos (Or.inr rfl)]

theorem flatten_chunkRows_pos {α : Type} (k : Nat) (hk : k ≠ 0) (l : List α) :
    (chunkRows k l).flatten = l := by
  by_cases h0 : l.length = 0
  · rw [chunkRows, dif_pos (Or.inl h0), List.flatten_nil]
    exact (List.length_eq_zero.mp h0).symm
  · rw [chunkRows, dif_neg (by push_neg; exact ⟨h0, hk⟩), List.flatten_cons,
      flatten_chunkRows_pos k hk (l.drop k), List.take_append_drop]
termination_by l.length
decreasing_by
  rw [List.length_drop]
  omega

theorem map_getD_range (l : List FVal) (d : FVal) :
    (List.range l.length).map (fun i => l.getD i d) = l := by
  apply List.ext_getElem
  · simp
  · intro i h1 h2
    simp only [List.getElem_map, List.getElem_range]
    exact List.getD_eq_getElem l d h2

/-- Claim C4: for every well-formed geometry (the spec's documented index
transform is a bijection) and every dense input of the geometry's size, the
split succeeds, every source element appears in exactly one of the two
output tiles with no duplication and no loss (the tiles' elements are a
permutation of the dense vector), and applying the inverse mapping to the
tiles reproduces the original dense vector exactly. -/
theorem split_bijection_roundtrip (g : Geometry) (dense : List FVal)
    (hwf : g.WellFormed) (hlen : dense.length = g.size) :
    ∃ east west, split g dense = Except.ok (east, west) ∧
      (east.flatten ++ west.flatten).Perm dense ∧
      unsplit g east west = dense := by
  have horder : g.order.length = g.size := by
    have h := hwf.length_eq
    simpa using h
  have hflat : (gatherD dense g.order).length = g.size := by
    simp [gatherD, horder]
  have hE : (chunkRows g.eastCols
        ((gatherD dense g.order).take (g.eastRows * g.eastCols))).flatten =
      (gatherD dense g.order).take (g.eastRows * g.eastCols) := by
    by_cases hc : g.eastCols = 0
    · rw [hc, chunkRows_zero_left, List.flatten_nil, Nat.mul_zero, List.take_zero]
    · exact flatten_chunkRows_pos g.eastCols hc _
  have hW : (chunkRows g.westCols
        ((gatherD dense g.order).drop (g.eastRows * g.eastCols))).flatten =
      (gatherD dense g.order).drop (g.eastRows * g.eastCols) := by
    by_cases hc : g.westCols = 0
    · have hsz : g.eastRows * g.eastCols = (gatherD dense g.order).length := by
        rw [hflat]
        simp [Geometry.size, hc]
      rw [hc, chunkRows_zero_left, List.flatten_nil, hsz, List.drop_length]
    · exact flatten_chunkRows_pos g.westCols hc _
  have hjoin : (chunkRows g.eastCols
        ((gatherD dense g.order).take (g.eastRows * g.eastCols))).flatten ++
      (chunkRows g.westCols
        ((gatherD dense g.order).drop (g.eastRows * g.eastCols))).flatten =
      gatherD dense g.order := by
    rw [hE, hW, List.take_append_drop]
  have hperm : (gatherD dense g.order).Perm dense := by
    have hp := hwf.map (fun i => dense.getD i (FVal.num 0))
    rw [← hlen, map_getD_range dense (FVal.num 0)] at hp
    exact hp
  refine ⟨chunkRows g.eastCols ((gatherD dense g.order).take (g.eastRows * g.eastCols)),
    chunkRows g.westCols ((gatherD dense g.order).drop (g.eastRows * g.eastCols)),
    ?_, ?_, ?_⟩
  · unfold split
    rw [if_neg (not_not_intro hlen)]
  · rw [hjoin]
    exact hperm
  · unfold unsplit
    rw [hjoin]
    apply List.ext_getElem
    · simp [hlen]
    · intro i h1 h2
      simp only [List.getElem_map, List.getElem_range]
      have hi : i < g.size := by simpa using h1
      have himem : i ∈ g.order := hwf.mem_iff.mpr (List.mem_range.mpr hi)
      have hp : List.indexOf i g.order < g.order.length := List.indexOf_lt_length.mpr himem
      have hp2 : List.indexOf i g.order < (gatherD dense g.order).length := by
        rw [hflat, ← horder]
        exact hp
      rw [List.getD_eq_getElem _ _ hp2]
      simp only [gatherD, List.getElem_map]
      rw [List.getElem_indexOf hp]
      exact List.getD_eq_getElem dense (FVal.num 0) h2

/-- Claim C4 witness: a four-cell geometry (east tile 1 x 2, west tile
2 x 1) with the bijective lookup [2,0,3,1]. -/
theorem split_bijection_roundtrip_witness :
    (Geometry.mk 1 2 2 1 [2, 0, 3, 1]).WellFormed ∧
    ([FVal.num 1, FVal.num 2, FVal.num 3, FVal.num 4] : List FVal).length =
      (Geometry.mk 1 2 2 1 [2, 0, 3, 1]).size ∧
    (∃ east west,
      split (Geometry.mk 1 2 2 1 [2, 0, 3, 1])
        [FVal.num 1, FVal.num 2, FVal.num 3, FVal.num 4] = Except.ok (east, west) ∧
      (east.flatten ++ west.flatten).Perm
        [FVal.num 1, FVal.num 2, FVal.num 3, FVal.num 4] ∧
      unsplit (Geometry.mk 1 2 2 1 [2, 0, 3, 1]) east west =
        [FVal.num 1, FVal.num 2, FVal.num 3, FVal.num 4]) :=
  ⟨by decide, by decide,
    split_bijection_roundtrip _ _ (by decide) (by decide)⟩

theorem length_chunkRows_mul {α : Type} (k : Nat) (hk : k ≠ 0) :
    ∀ (r : Nat) (l : List α), l.length = r * k → (chunkRows k l).length = r := by
  intro r
  induction r with
  | zero =>
    intro l hl
    have hnil : chunkRows k l = [] := by
      rw [chunkRows, dif_pos (Or.inl (by simpa using hl))]
    rw [hnil]
    rfl
  | succ r ih =>
    intro l hl
    have h0 : l.length ≠ 0 := by
      rw [hl]
      exact Nat.mul_ne_zero (Nat.succ_ne_zero r) hk
    have hstep : chunkRows k l = l.take k :: chunkRows k (l.drop k) := by
      rw [chunkRows, dif_neg (by push_neg; exact ⟨h0, hk⟩)]
    rw [hstep, List.length_cons,
      ih (l.drop k) (by rw [List.length_drop, hl, Nat.succ_mul]; omega)]

theorem mem_chunkRows_length {α : Type} (k : Nat) (hk : k ≠ 0) (l : List α)
    (hdvd : k ∣ l.length) : ∀ row ∈ chunkRows k l, row.length = k := by
  by_cases h0 : l.length = 0
  · intro row hrow
    have hnil : chunkRows k l = [] := by
      rw [chunkRows, dif_pos (Or.inl h0)]
    rw [hnil] at hrow
    simp at hrow
  · intro row hrow
    have hge : k ≤ l.length := Nat.le_of_dvd (Nat.pos_of_ne_zero h0) hdvd
    have hstep : chunkRows k l = l.take k :: chunkRows k (l.drop k) := by
      rw [chunkRows, dif_neg (by push_neg; exact ⟨h0, hk⟩)]
    rw [hstep] at hrow
    rcases List.mem_cons.mp hrow with rfl | hmem
    · rw [List.length_take]
      exact Nat.min_eq_left hge
    · exact mem_chunkRows_length k hk (l.drop k)
        (by rw [List.length_drop]; exact Nat.dvd_sub' hdvd (dvd_refl k)) row hmem
termination_by l.length
decreasing_by
  rw [List.length_drop]
  omega

theorem split_ok_shapes (g : Geometry) (dense : List FVal)
    (horder : g.order.length = g.size)
    (hE : g.eastCols ≠ 0) (hW : g.westCols ≠ 0)
    (hlen : dense.length = g.size) :
    ∃ east west, split g dense = Except.ok (east, west) ∧
      east.length = g.eastRows ∧ (∀ row ∈ east, row.length = g.eastCols) ∧
      west.length = g.westRows ∧ (∀ row ∈ west, row.length = g.westCols) ∧
      east.flatten.length = g.eastRows * g.eastCols ∧
      west.flatten.length = g.westRows * g.westCols := by
  have hflat : (gatherD dense g.order).length = g.size := by
    simp [gatherD, horder]
  have htake : ((gatherD dense g.order).take (g.eastRows * g.eastCols)).length =
      g.eastRows * g.eastCols := by
    rw [List.length_take, hflat]
    unfold Geometry.size
    omega
  have hdrop : ((gatherD dense g.order).drop (g.eastRows * g.eastCols)).length =
      g.westRows * g.westCols := by
    rw [List.length_drop, hflat]
    unfold Geometry.size
    omega
  refine ⟨chunkRows g.eastCols ((gatherD dense g.order).take (g.eastRows * g.eastCols)),
    chunkRows g.westCols ((gatherD dense g.order).drop (g.eastRows * g.eastCols)),
    ?_, ?_, ?_, ?_, ?_, ?_, ?_⟩
  · unfold split
    rw [if_neg (not_not_intro hlen)]
  · exact length_chunkRows_mul g.eastCols hE g.eastRows _ htake
  · exact mem_chunkRows_length g.eastCols hE _ ⟨g.eastRows, by rw [htake]; ring⟩
  · exact length_chunkRows_mul g.westCols hW g.westRows _ hdrop
  · exact mem_chunkRows_length g.westCols hW _ ⟨g.westRows, by rw [hdrop]; ring⟩
  · rw [flatten_chunkRows_pos g.eastCols hE, htake]
  · rw [flatten_chunkRows_pos g.westCols hW, hdrop]

/-- Claim C5 counterexample: running split on the reference geometry with a
dense input of the geometry's size returns tiles with exactly the shapes the
repository attests — east 12960 rows of 8640, west 8640 rows of 12960 — yet
their combined element count is 223948800, which is not N = ROWS * COLS =
111974400 as the claim states. -/
theorem split_refGeometry_count_cex :
    ∃ east west,
      split refGeometry (List.replicate (12960 * 8640 + 8640 * 12960) (FVal.num 1)) =
        Except.ok (east, west) ∧
      east.length = 12960 ∧ (∀ row ∈ east, row.length = 8640) ∧
      west.length = 8640 ∧ (∀ row ∈ west, row.length = 12960) ∧
      east.flatten.length + west.flatten.length ≠ ROWS * COLS := by
  obtain ⟨east, west, hs, h1, h2, h3, h4, h5, h6⟩ :=
    split_ok_shapes refGeometry (List.replicate (12960 * 8640 + 8640 * 12960) (FVal.num 1))
      (by simp [refGeometry, Geometry.size]) (by decide) (by decide)
      (by rw [List.length_replicate]; rfl)
  refine ⟨east, west, hs, ?_, ?_, ?_, ?_, ?_⟩
  · rw [h1]; rfl
  · intro row hrow; rw [h2 row hrow]; rfl
  · rw [h3]; rfl
  · intro row hrow; rw [h4 row hrow]; rfl
  · rw [h5, h6]; decide

/-- Claim C5 (amended): for the reference geometry (ROWS = 12960,
COLS = 8640), split returns an east tile of shape 12960 x 8640 (12960 rows
of 8640 entries) and a west tile of shape 8640 x 12960 (the two tiles are
not the same shape), and the combined element count of the returned tiles
equals 2 * ROWS * COLS — each tile alone holds ROWS * COLS elements. -/
theorem split_refGeometry_tile_shapes (dense : List FVal)
    (hlen : dense.length = refGeometry.size) :
    ∃ east west, split refGeometry dense = Except.ok (east, west) ∧
      east.length = ROWS ∧ (∀ row ∈ east, row.length = COLS) ∧
      west.length = COLS ∧ (∀ row ∈ west, row.length = ROWS) ∧
      east.length ≠ west.length ∧
      east.flatten.length = ROWS * COLS ∧
      west.flatten.length = ROWS * COLS ∧
      east.flatten.length + west.flatten.length = 2 * (ROWS * COLS) := by
  obtain ⟨east, west, hs, h1, h2, h3, h4, h5, h6⟩ :=
    split_ok_shapes refGeometry dense
      (by simp [refGeometry, Geometry.size]) (by decide) (by decide) hlen
  refine ⟨east, west, hs, ?_, ?_, ?_, ?_, ?_, ?_, ?_, ?_⟩
  · rw [h1]; rfl
  · intro row hrow; rw [h2 row hrow]; rfl
  · rw [h3]; rfl
  · intro row hrow; rw [h4 row hrow]; rfl
  · rw [h1, h3]; decide
  · rw [h5]; decide
  · rw [h6]; decide
  · rw [h5, h6]; decide

/-- Claim C5 witness: a dense vector of the reference size, built as a
replicate so its length is available without enumerating the grid. -/
theorem split_refGeometry_tile_shapes_witness :
    (List.replicate (12960 * 8640 + 8640 * 12960) (FVal.num 1)).length =
      refGeometry.size ∧
    (∃ east west, split refGeometry
        (List.replicate (12960 * 8640 + 8640 * 12960) (FVal.num 1)) =
        Except.ok (east, west) ∧
      east.length = ROWS ∧ (∀ row ∈ east, row.length = COLS) ∧
      west.length = COLS ∧ (∀ row ∈ west, row.length = ROWS) ∧
      east.length ≠ west.length ∧
      east.flatten.length = ROWS * COLS ∧
      west.flatten.length = ROWS * COLS ∧
      east.flatten.length + west.flatten.length = 2 * (ROWS * COLS)) :=
  ⟨by rw [List.length_replicate]; rfl,
    split_refGeometry_tile_shapes _ (by rw [List.length_replicate]; rfl)⟩

/-- Claim C8: for every geometry and every dense input whose length differs
from the geometry's fixed size, the modelled split fails with
ShapeMismatchError, producing no tiles. -/
theorem split_length_mismatch_error (g : Geometry) (dense : List FVal)
    (h : dense.length ≠ g.size) :
    split g dense = Except.error "ShapeMismatchError" := by
  unfold split
  rw [if_pos h]

/-- Claim C8 witness: a four-cell geometry fed an empty dense vector. -/
theorem split_length_mismatch_error_witness :
    ([] : List FVal).length ≠ (Geometry.mk 1 2 2 1 [2, 0, 3, 1]).size ∧
    split (Geometry.mk 1 2 2 1 [2, 0, 3, 1]) [] =
      Except.error "ShapeMismatchError" :=
  ⟨by decide, split_length_mismatch_error _ _ (by decide)⟩
